import Mathlib

/-!
Verification development for `ch_pipeline.analysis.mapmaker.RingMapMaker.process`.

The embedding models the four stages of the ring-map maker: the baseline
classifier, the grid packer, the weight normalizer and the beam synthesizer.
Feed positions, weights and frequencies are modelled as exact rationals
(the source stores them in floating point; all claim-relevant arithmetic is
exact), visibilities as complex numbers.  Array axes become explicit natural
number indices; a numpy slice assignment `arr[:, p, :, c, b] = v` becomes a
pointwise function update on the (pol, cyl, bin) slice.  Signed numpy indices
`arr[..., -y]` are modelled by reduction modulo the axis length, which agrees
with numpy for in-range indices.  Fallible steps return `Except`.
-/

set_option maxHeartbeats 1000000

namespace ChPipeline

/-- One antenna feed, as consumed from the telescope geometry collaborator:
`polS` models `feed.pol == 'S'`, `cyl` the cylinder index, `posY` the row
position `feed.pos[1]`. -/
structure Feed where
  polS : Bool
  cyl : ℤ
  posY : ℚ

/-- The telescope object: feed descriptors and per-baseline redundancy. -/
structure Telescope where
  feeds : ℕ → Feed
  redundancy : ℕ → ℕ

/-- The input sidereal stream: the product (feed-pair) list, and the
visibility and weight arrays indexed by (freq, baseline, ra/time), plus the
frequency axis in MHz. -/
structure SStream where
  prod : List (ℕ × ℕ)
  vis : ℕ → ℕ → ℕ → ℂ
  weight : ℕ → ℕ → ℕ → ℚ
  freq : ℕ → ℚ

/-- The task configuration properties of `RingMapMaker`. -/
structure Config where
  npix : ℕ := 512
  span : ℚ := 1
  weighting : String := "natural"
  intracyl : Bool := true

/-- Errors the modelled `process` can signal.  `geometryError` models the
exception numpy's `percentile` raises on the empty sequence at line 110 when
every row separation is zero (the spec's GeometryError kind); `nameError`
models Python's NameError on the unbound `w` in the coefficient write at
line 157/165 when the weighting string is unrecognized (the `KeyError` on
line 147 is constructed but never raised). -/
inductive PyErr where
  | geometryError : PyErr
  | nameError : PyErr
  deriving DecidableEq

/-- Stage 1, lines 100-108: for each feed pair derive
(polarisation index, cylinder separation, signed row separation). -/
def classify (tel : Telescope) (prod : List (ℕ × ℕ)) : List (ℕ × ℕ × ℚ) :=
  prod.map (fun q =>
    (2 * (cond (tel.feeds q.1).polS 1 0) + cond (tel.feeds q.2).polS 1 0,
     ((tel.feeds q.1).cyl - (tel.feeds q.2).cyl).natAbs,
     (tel.feeds q.1).posY - (tel.feeds q.2).posY))

/-- The `ysep` list of a classified baseline list. -/
def ysepList (c : List (ℕ × ℕ × ℚ)) : List ℚ :=
  c.map (fun t => t.2.2)

/-- Line 110, the percentile argument: absolute row separations with the
zeros removed. -/
def nonzeroAbsYsep (ys : List ℚ) : List ℚ :=
  (ys.map (fun y => |y|)).filter (fun y => decide (0 < y))

/-- Minimum of a list (0th percentile of a nonempty list). -/
def listMin : List ℚ → ℚ
  | [] => 0
  | x :: xs => xs.foldl min x

/-- Maximum of a list (100th percentile of a nonempty list). -/
def listMax : List ℚ → ℚ
  | [] => 0
  | x :: xs => xs.foldl max x

/-- The value `min_ysep` of line 110. -/
def minYsep (c : List (ℕ × ℕ × ℚ)) : ℚ :=
  listMin (nonzeroAbsYsep (ysepList c))

/-- The value `max_ysep` of line 110. -/
def maxYsep (c : List (ℕ × ℕ × ℚ)) : ℚ :=
  listMax (nonzeroAbsYsep (ysepList c))

/-- Rounding as `numpy.round`: round half to even. -/
def roundHalfEven (x : ℚ) : ℤ :=
  if x - ⌊x⌋ = 1 / 2 then (if 2 ∣ (⌊x⌋ : ℤ) then ⌊x⌋ else ⌊x⌋ + 1) else round x

/-- Line 117: `nfeed = int(np.round(max_ysep / min_ysep))`. -/
def nfeedOf (c : List (ℕ × ℕ × ℚ)) : ℕ :=
  (roundHalfEven (maxYsep c / minYsep c)).toNat

/-- Line 118: `nvis_1d = 2 * nfeed - 1`. -/
def nvis1dOf (c : List (ℕ × ℕ × ℚ)) : ℕ :=
  2 * nfeedOf c - 1

/-- Line 119: `ncyl = max(np.abs(xindex)) + 1`. -/
def ncylOf (c : List (ℕ × ℕ × ℚ)) : ℕ :=
  (c.map (fun t => t.2.1)).foldr max 0 + 1

/-- Line 120: `nbeam = 2 * ncyl - 1`. -/
def nbeamOf (c : List (ℕ × ℕ × ℚ)) : ℕ :=
  2 * ncylOf c - 1

/-- Lines 112-114: the enumerated `(pol, xindex, yindex)` triples, with
`yindex = int(np.round(ysep / min_ysep))`. -/
def feedIndex (c : List (ℕ × ℕ × ℚ)) : List (ℕ × ℕ × ℕ × ℤ) :=
  (c.map (fun t => (t.1, t.2.1, roundHalfEven (t.2.2 / minYsep c)))).enum

/-- A dense grid indexed by (freq, pol, ra, cyl, bin). -/
def Grid (α : Type) : Type :=
  ℕ → ℕ → ℕ → ℕ → ℕ → α

/-- Numpy slice assignment `arr[:, p0, :, c0, b0] = v` on a grid. -/
def sliceUpd {α : Type} (g : Grid α) (p0 c0 b0 : ℕ) (v : ℕ → ℕ → α) : Grid α :=
  fun f p r c b => if p = p0 ∧ c = c0 ∧ b = b0 then v f r else g f p r c b

/-- A (possibly negative) bin index reduced to the actual array position,
as numpy does for in-range signed indices. -/
def binIdx (n : ℕ) (y : ℤ) : ℕ :=
  (y % (n : ℤ)).toNat

/-- The state of the unpacking loop of lines 132-165: the three grids and
the first raised exception, if any. -/
structure PackState where
  vdr : Grid ℂ
  wgh : Grid ℚ
  smp : Grid ℚ
  err : Option PyErr

/-- Lines 127-129: the grids start out all zero. -/
def initPack : PackState :=
  { vdr := fun _ _ _ _ _ => 0, wgh := fun _ _ _ _ _ => 0,
    smp := fun _ _ _ _ _ => 0, err := none }

/-- The weighting value `w` of lines 137-144 for baseline `i`, as a function
of (freq, ra); for `uniform` and `natural` it is constant. -/
def wFun (cfg : Config) (tel : Telescope) (ss : SStream) (i : ℕ) : ℕ → ℕ → ℚ :=
  fun f r =>
    if cfg.weighting = "uniform" then 1
    else if cfg.weighting = "natural" then (tel.redundancy i : ℚ)
    else ss.weight f i r

/-- Lines 137-147: `some w` for a recognized weighting scheme, `none` when
the scheme is unrecognized (the code then leaves `w` unbound: the `KeyError`
on line 147 is constructed but not raised). -/
def weightVal (cfg : Config) (tel : Telescope) (ss : SStream) (i : ℕ) :
    Option (ℕ → ℕ → ℚ) :=
  if cfg.weighting = "uniform" ∨ cfg.weighting = "natural" ∨
      cfg.weighting = "inverse_variance" then
    some (wFun cfg tel ss i)
  else none

/-- One iteration of the unpacking loop (lines 132-165) on enumerated
baseline `(i, p, x, y)`.  With an unrecognized weighting the visibility and
weight writes still happen, and the coefficient write then raises NameError
on the unbound `w`; an earlier exception makes the iteration unreachable. -/
def packStep (cfg : Config) (tel : Telescope) (ss : SStream) (n : ℕ)
    (s : PackState) (t : ℕ × ℕ × ℕ × ℤ) : PackState :=
  match s.err with
  | some _ => s
  | none =>
    let i := t.1
    let p := t.2.1
    let x := t.2.2.1
    let y := t.2.2.2
    let bp := binIdx n y
    let bm := binIdx n (-y)
    if x = 0 ∧ cfg.intracyl = true then
      let vdr2 := sliceUpd (sliceUpd s.vdr p x bp (fun f r => ss.vis f i r)) p x bm
        (fun f r => (starRingEnd ℂ) (ss.vis f i r))
      let wgh2 := sliceUpd (sliceUpd s.wgh p x bp (fun f r => ss.weight f i r)) p x bm
        (fun f r => ss.weight f i r)
      match weightVal cfg tel ss i with
      | some w =>
        { vdr := vdr2, wgh := wgh2,
          smp := sliceUpd (sliceUpd s.smp p x bp (fun f r => w f r)) p x bm
            (fun f r => w f r),
          err := none }
      | none => { vdr := vdr2, wgh := wgh2, smp := s.smp, err := some PyErr.nameError }
    else
      let vdr2 := sliceUpd s.vdr p x bp (fun f r => ss.vis f i r)
      let wgh2 := sliceUpd s.wgh p x bp (fun f r => ss.weight f i r)
      match weightVal cfg tel ss i with
      | some w =>
        { vdr := vdr2, wgh := wgh2,
          smp := sliceUpd s.smp p x bp (fun f r => w f r), err := none }
      | none => { vdr := vdr2, wgh := wgh2, smp := s.smp, err := some PyErr.nameError }

/-- The whole unpacking loop of lines 132-165. -/
def packStage (cfg : Config) (tel : Telescope) (ss : SStream) : PackState :=
  (feedIndex (classify tel ss.prod)).foldl
    (packStep cfg tel ss (nvis1dOf (classify tel ss.prod))) initPack

/-- Lines 167-169: `smp[..., 0, 0] = 0.0` when `intracyl`. -/
def smpZeroed (cfg : Config) (tel : Telescope) (ss : SStream) : Grid ℚ :=
  fun f p r c b =>
    if cfg.intracyl = true ∧ c = 0 ∧ b = 0 then 0
    else (packStage cfg tel ss).smp f p r c b

/-- Lines 172-173: the cylinder weighting vector, 2 everywhere with
`coeff[0] -= intracyl`. -/
def coeffVec (cfg : Config) : ℕ → ℚ :=
  fun c => if c = 0 then 2 - cond cfg.intracyl 1 0 else 2

/-- The external utility `ch_util.tools.invert_no_zero`: elementwise
reciprocal mapping an exactly zero divisor to zero. -/
def invert_no_zero (x : ℚ) : ℚ :=
  if x = 0 then 0 else x⁻¹

/-- Line 175, the divisor before inversion:
`np.sum(np.dot(coeff, smp), axis=-1)` at pixel (f, p, r). -/
def preTotal (cfg : Config) (tel : Telescope) (ss : SStream) (f p r : ℕ) : ℚ :=
  ∑ b ∈ Finset.range (nvis1dOf (classify tel ss.prod)),
    ∑ cc ∈ Finset.range (ncylOf (classify tel ss.prod)),
      coeffVec cfg cc * smpZeroed cfg tel ss f p r cc b

/-- Line 175: the normalized sample coefficient grid. -/
def smpNorm (cfg : Config) (tel : Telescope) (ss : SStream) : Grid ℚ :=
  fun f p r c b =>
    smpZeroed cfg tel ss f p r c b * invert_no_zero (preTotal cfg tel ss f p r)

/-- Line 178: `el = span * np.linspace(-1, 1, npix)`. -/
def elGrid (cfg : Config) (px : ℕ) : ℚ :=
  cfg.span * (if cfg.npix ≤ 1 then -1 else -1 + 2 * (px : ℚ) / ((cfg.npix : ℚ) - 1))

/-- The signed DFT index underlying `np.fft.fftfreq`. -/
def fftfreqSigned (n : ℕ) (k : ℕ) : ℤ :=
  if (k : ℤ) ≤ ((n : ℤ) - 1) / 2 then (k : ℤ) else (k : ℤ) - (n : ℤ)

/-- Line 180: `vis_pos_1d = np.fft.fftfreq(nvis_1d, d=1/(nvis_1d*min_ysep))`,
which equals the signed index times `min_ysep`. -/
def visPos1d (c : List (ℕ × ℕ × ℚ)) (b : ℕ) : ℚ :=
  (fftfreqSigned (nvis1dOf c) b : ℚ) * minYsep c

/-- The constant `scipy.constants.c` in m/s. -/
def speedOfLight : ℚ := 299792458

/-- Line 200: `wv = scipy.constants.c * 1e-6 / fr` (frequency in MHz). -/
def waveLen (fr : ℚ) : ℚ :=
  speedOfLight * (1 / 1000000) / fr

/-- Line 204: the phase steering matrix
`pa = exp(2.0J * pi * vis_pos_1d[:, None] * el[None, :] / wv)`. -/
noncomputable def paMat (cfg : Config) (tel : Telescope) (ss : SStream)
    (f b px : ℕ) : ℂ :=
  Complex.exp (2 * Complex.I * (Real.pi : ℂ) *
    ((visPos1d (classify tel ss.prod) b : ℚ) : ℂ) * ((elGrid cfg px : ℚ) : ℂ) /
    ((waveLen (ss.freq f) : ℚ) : ℂ))

/-- The Hermitian extension of the first `n / 2 + 1` Fourier coefficients to
all `n`, as assumed by `np.fft.irfft` of output length `n`. -/
def hermExtend (n : ℕ) (a : ℕ → ℂ) (k : ℕ) : ℂ :=
  if k ≤ n / 2 then a k else (starRingEnd ℂ) (a (n - k))

/-- The transform `np.fft.irfft(a, n)` at output position `m`: the length-`n` inverse
discrete Fourier transform of the Hermitian extension of `a` (the output of
the real transform, so the value is the real part of the inverse DFT sum). -/
noncomputable def irfftN (n : ℕ) (a : ℕ → ℂ) (m : ℕ) : ℝ :=
  ((n : ℂ)⁻¹ * ∑ k ∈ Finset.range n,
    hermExtend n a k * Complex.exp (2 * (Real.pi : ℂ) * Complex.I * (k : ℂ) * (m : ℂ) / (n : ℂ))).re

/-- Line 206: the sky map
`bfm = np.fft.irfft(np.dot(smp[lfi] * vdr[lfi], pa), nbeam, axis=2) * nbeam`. -/
noncomputable def mapOut (cfg : Config) (tel : Telescope) (ss : SStream)
    (f p r beam px : ℕ) : ℝ :=
  irfftN (nbeamOf (classify tel ss.prod))
    (fun cy => ∑ b ∈ Finset.range (nvis1dOf (classify tel ss.prod)),
      ((smpNorm cfg tel ss f p r cy b : ℚ) : ℂ) * (packStage cfg tel ss).vdr f p r cy b *
        paMat cfg tel ss f b px)
    beam * (nbeamOf (classify tel ss.prod) : ℝ)

/-- Line 207: the dirty beam
`sb = np.fft.irfft(np.dot(smp[lfi], pa), nbeam, axis=2) * nbeam`. -/
noncomputable def dirtyOut (cfg : Config) (tel : Telescope) (ss : SStream)
    (f p r beam px : ℕ) : ℝ :=
  irfftN (nbeamOf (classify tel ss.prod))
    (fun cy => ∑ b ∈ Finset.range (nvis1dOf (classify tel ss.prod)),
      ((smpNorm cfg tel ss f p r cy b : ℚ) : ℂ) * paMat cfg tel ss f b px)
    beam * (nbeamOf (classify tel ss.prod) : ℝ)

/-- Line 192: the RMS estimate
`rms = sqrt(sum(dot(coeff, invert_no_zero(wgh) * smp**2), axis=-1))`. -/
noncomputable def rmsOut (cfg : Config) (tel : Telescope) (ss : SStream)
    (f p r : ℕ) : ℝ :=
  Real.sqrt ((
    ∑ b ∈ Finset.range (nvis1dOf (classify tel ss.prod)),
      ∑ cc ∈ Finset.range (ncylOf (classify tel ss.prod)),
        coeffVec cfg cc *
          (invert_no_zero ((packStage cfg tel ss).wgh f p r cc b) *
            smpNorm cfg tel ss f p r cc b ^ 2) : ℚ) : ℝ)

/-- Line 123: the polarisation labels. -/
def polLabels : List String := ["XX", "XY", "YX", "YY"]

/-- The output ring-map container contents (line 183 onwards). -/
structure RingMapOut where
  nbeam : ℕ
  pol : List String
  el : ℕ → ℚ
  rms : ℕ → ℕ → ℕ → ℝ
  map : Grid ℝ
  dirty_beam : Grid ℝ

/-- The task body `RingMapMaker.process` (lines 77-213): classify, pack, normalize and
synthesize, or signal the first exception raised. -/
noncomputable def process (cfg : Config) (tel : Telescope) (ss : SStream) :
    Except PyErr RingMapOut :=
  if nonzeroAbsYsep (ysepList (classify tel ss.prod)) = [] then
    Except.error PyErr.geometryError
  else
    match (packStage cfg tel ss).err with
    | some e => Except.error e
    | none =>
      Except.ok
        { nbeam := nbeamOf (classify tel ss.prod), pol := polLabels,
          el := elGrid cfg, rms := rmsOut cfg tel ss,
          map := mapOut cfg tel ss, dirty_beam := dirtyOut cfg tel ss }

/-- The configured weighting is one of the three recognized schemes. -/
def recognized (cfg : Config) : Prop :=
  cfg.weighting = "uniform" ∨ cfg.weighting = "natural" ∨
    cfg.weighting = "inverse_variance"

/-- Enumerated baseline `t` writes grid cell `(p, c, b)` during its packing
iteration (for the conjugate cell only on the intra-cylinder branch). -/
def writesCell (intracyl : Bool) (n : ℕ) (t : ℕ × ℕ × ℕ × ℤ) (p c b : ℕ) : Prop :=
  p = t.2.1 ∧ c = t.2.2.1 ∧
    (b = binIdx n t.2.2.2 ∨
      (t.2.2.1 = 0 ∧ intracyl = true ∧ b = binIdx n (-t.2.2.2)))

/-! Concrete configurations and datasets used for witnesses and
counterexamples. -/

/-- A small uniform-weighting configuration with `intracyl = True`. -/
def cfgU4 : Config := { npix := 4, span := 1, weighting := "uniform", intracyl := true }

/-- The same configuration with `intracyl = False`. -/
def cfgUF4 : Config := { npix := 4, span := 1, weighting := "uniform", intracyl := false }

/-- A configuration with an unrecognized weighting scheme. -/
def cfgFoo : Config := { npix := 4, span := 1, weighting := "foo", intracyl := true }

/-- Dataset A: three same-polarisation feeds on one cylinder at row
positions 2, 1, 0. -/
def exTelA : Telescope :=
  { feeds := fun i => if i = 0 then { polS := false, cyl := 0, posY := 2 }
      else if i = 1 then { polS := false, cyl := 0, posY := 1 }
      else { polS := false, cyl := 0, posY := 0 },
    redundancy := fun _ => 1 }

/-- Dataset A stream: baselines (0,1), (1,2), (0,2), constant weights. -/
def exSSA : SStream :=
  { prod := [(0, 1), (1, 2), (0, 2)],
    vis := fun _ i _ => if i = 1 then 3 else if i = 2 then 4 else 2,
    weight := fun _ _ _ => 1,
    freq := fun _ => 600 }

/-- Dataset B: one feed on cylinder 0 and three feeds on cylinder 1; the
baselines (0,1) and (0,3) land in the same grid cell. -/
def exTelB : Telescope :=
  { feeds := fun i => if i = 0 then { polS := false, cyl := 0, posY := 2 }
      else if i = 1 then { polS := false, cyl := 1, posY := 1 }
      else if i = 2 then { polS := false, cyl := 1, posY := 0 }
      else { polS := false, cyl := 1, posY := 1 },
    redundancy := fun _ => 1 }

/-- Dataset B stream: baselines (0,1), (0,2), (0,3). -/
def exSSB : SStream :=
  { prod := [(0, 1), (0, 2), (0, 3)],
    vis := fun _ i _ => if i = 0 then 2 else if i = 2 then 3 else 7,
    weight := fun _ _ _ => 1,
    freq := fun _ => 600 }

/-- Dataset C: one cylinder with feeds at rows 2, 1, 0, 0; the baseline
(2,3) has zero row separation and visibility `I`. -/
def exTelC : Telescope :=
  { feeds := fun i => if i = 0 then { polS := false, cyl := 0, posY := 2 }
      else if i = 1 then { polS := false, cyl := 0, posY := 1 }
      else if i = 2 then { polS := false, cyl := 0, posY := 0 }
      else { polS := false, cyl := 0, posY := 0 },
    redundancy := fun _ => 1 }

/-- Dataset C stream: baselines (0,2), (1,2), (2,3). -/
def exSSC : SStream :=
  { prod := [(0, 2), (1, 2), (2, 3)],
    vis := fun _ i _ => if i = 2 then Complex.I else 1,
    weight := fun _ _ _ => 1,
    freq := fun _ => 600 }

/-- Dataset Z: every feed at the identical row position 0. -/
def exTelZ : Telescope :=
  { feeds := fun _ => { polS := false, cyl := 0, posY := 0 },
    redundancy := fun _ => 1 }

/-- Dataset Z stream: a single baseline (0,1). -/
def exSSZ : SStream :=
  { prod := [(0, 1)],
    vis := fun _ _ _ => 1,
    weight := fun _ _ _ => 1,
    freq := fun _ => 600 }

/-! Evaluation helpers for `roundHalfEven` and `binIdx`. -/

theorem roundHalfEven_zero : roundHalfEven 0 = 0 := by
  norm_num [roundHalfEven]

theorem roundHalfEven_one : roundHalfEven 1 = 1 := by
  norm_num [roundHalfEven]

theorem roundHalfEven_two : roundHalfEven 2 = 2 := by
  norm_num [roundHalfEven]

theorem binIdx_3_1 : binIdx 3 1 = 1 := by decide

theorem binIdx_3_neg1 : binIdx 3 (-1) = 2 := by decide

theorem binIdx_3_2 : binIdx 3 2 = 2 := by decide

theorem binIdx_3_neg2 : binIdx 3 (-2) = 1 := by decide

theorem binIdx_3_0 : binIdx 3 0 = 0 := by decide

/-! Classifier evaluation on the concrete datasets. -/

theorem exA_classify : classify exTelA exSSA.prod = [(0, 0, 1), (0, 0, 1), (0, 0, 2)] := by
  norm_num [classify, exTelA, exSSA]

theorem exA_min : minYsep (classify exTelA exSSA.prod) = 1 := by
  rw [exA_classify]; decide

theorem exA_max : maxYsep (classify exTelA exSSA.prod) = 2 := by
  rw [exA_classify]; decide

theorem exA_nfeed : nfeedOf (classify exTelA exSSA.prod) = 2 := by
  unfold nfeedOf
  rw [exA_min, exA_max, show (2 : ℚ) / 1 = 2 from by norm_num, roundHalfEven_two]
  decide

theorem exA_nvis : nvis1dOf (classify exTelA exSSA.prod) = 3 := by
  unfold nvis1dOf
  rw [exA_nfeed]

theorem exA_ncyl : ncylOf (classify exTelA exSSA.prod) = 1 := by
  rw [exA_classify]; decide

theorem exA_feedIndex :
    feedIndex (classify exTelA exSSA.prod) = [(0, 0, 0, 1), (1, 0, 0, 1), (2, 0, 0, 2)] := by
  unfold feedIndex
  rw [exA_classify]
  rw [show minYsep [(0, 0, 1), (0, 0, 1), (0, 0, 2)] = 1 from by decide]
  norm_num [roundHalfEven_one, roundHalfEven_two, List.enum, List.enumFrom]

theorem exB_classify : classify exTelB exSSB.prod = [(0, 1, 1), (0, 1, 2), (0, 1, 1)] := by
  norm_num [classify, exTelB, exSSB]

theorem exB_min : minYsep (classify exTelB exSSB.prod) = 1 := by
  rw [exB_classify]; decide

theorem exB_max : maxYsep (classify exTelB exSSB.prod) = 2 := by
  rw [exB_classify]; decide

theorem exB_nvis : nvis1dOf (classify exTelB exSSB.prod) = 3 := by
  unfold nvis1dOf nfeedOf
  rw [exB_min, exB_max, show (2 : ℚ) / 1 = 2 from by norm_num, roundHalfEven_two]
  decide

theorem exB_feedIndex :
    feedIndex (classify exTelB exSSB.prod) = [(0, 0, 1, 1), (1, 0, 1, 2), (2, 0, 1, 1)] := by
  unfold feedIndex
  rw [exB_classify]
  rw [show minYsep [(0, 1, 1), (0, 1, 2), (0, 1, 1)] = 1 from by decide]
  norm_num [roundHalfEven_one, roundHalfEven_two, List.enum, List.enumFrom]

theorem exC_classify : classify exTelC exSSC.prod = [(0, 0, 2), (0, 0, 1), (0, 0, 0)] := by
  norm_num [classify, exTelC, exSSC]

theorem exC_min : minYsep (classify exTelC exSSC.prod) = 1 := by
  rw [exC_classify]; decide

theorem exC_max : maxYsep (classify exTelC exSSC.prod) = 2 := by
  rw [exC_classify]; decide

theorem exC_nvis : nvis1dOf (classify exTelC exSSC.prod) = 3 := by
  unfold nvis1dOf nfeedOf
  rw [exC_min, exC_max, show (2 : ℚ) / 1 = 2 from by norm_num, roundHalfEven_two]
  decide

theorem exC_feedIndex :
    feedIndex (classify exTelC exSSC.prod) = [(0, 0, 0, 2), (1, 0, 0, 1), (2, 0, 0, 0)] := by
  unfold feedIndex
  rw [exC_classify]
  rw [show minYsep [(0, 0, 2), (0, 0, 1), (0, 0, 0)] = 1 from by decide]
  norm_num [roundHalfEven_zero, roundHalfEven_one, roundHalfEven_two, List.enum, List.enumFrom]

/-! Machinery for reading the packed grids: a cell not written by any of the
remaining iterations keeps its value, and a written cell holds the writing
iteration's value. -/

theorem sliceUpd_ne {α : Type} (g : Grid α) (p0 c0 b0 : ℕ) (v : ℕ → ℕ → α)
    (f p r c b : ℕ) (h : ¬(p = p0 ∧ c = c0 ∧ b = b0)) :
    sliceUpd g p0 c0 b0 v f p r c b = g f p r c b :=
  if_neg h

theorem sliceUpd_hit {α : Type} (g : Grid α) (p0 c0 b0 : ℕ) (v : ℕ → ℕ → α)
    (f r : ℕ) : sliceUpd g p0 c0 b0 v f p0 r c0 b0 = v f r :=
  if_pos ⟨rfl, rfl, rfl⟩

theorem weightVal_recognized (cfg : Config) (tel : Telescope) (ss : SStream)
    (hrec : recognized cfg) (i : ℕ) :
    weightVal cfg tel ss i = some (wFun cfg tel ss i) :=
  if_pos hrec

theorem packStep_err (cfg : Config) (tel : Telescope) (ss : SStream) (n : ℕ)
    (s : PackState) (t : ℕ × ℕ × ℕ × ℤ) (hrec : recognized cfg) :
    (packStep cfg tel ss n s t).err = s.err := by
  cases herr : s.err with
  | some e => simp [packStep, herr]
  | none =>
    by_cases hx : t.2.2.1 = 0 ∧ cfg.intracyl = true
    · simp [packStep, herr, hx, weightVal_recognized cfg tel ss hrec]
    · simp [packStep, herr, hx, weightVal_recognized cfg tel ss hrec]

theorem packFold_err (cfg : Config) (tel : Telescope) (ss : SStream) (n : ℕ)
    (hrec : recognized cfg) :
    ∀ (L : List (ℕ × ℕ × ℕ × ℤ)) (s : PackState),
      (L.foldl (packStep cfg tel ss n) s).err = s.err := by
  intro L
  induction L with
  | nil => intro s; rfl
  | cons t L ih =>
    intro s
    rw [List.foldl_cons, ih, packStep_err cfg tel ss n s t hrec]

theorem packStep_preserve (cfg : Config) (tel : Telescope) (ss : SStream) (n : ℕ)
    (s : PackState) (t : ℕ × ℕ × ℕ × ℤ) (p c b : ℕ)
    (hnw : ¬ writesCell cfg.intracyl n t p c b) (f r : ℕ) :
    (packStep cfg tel ss n s t).vdr f p r c b = s.vdr f p r c b ∧
    (packStep cfg tel ss n s t).wgh f p r c b = s.wgh f p r c b ∧
    (packStep cfg tel ss n s t).smp f p r c b = s.smp f p r c b := by
  unfold writesCell at hnw
  have h1 : ¬(p = t.2.1 ∧ c = t.2.2.1 ∧ b = binIdx n t.2.2.2) := by tauto
  cases herr : s.err with
  | some e => simp [packStep, herr]
  | none =>
    by_cases hx : t.2.2.1 = 0 ∧ cfg.intracyl = true
    · have h2 : ¬(p = t.2.1 ∧ c = t.2.2.1 ∧ b = binIdx n (-t.2.2.2)) := by tauto
      rw [hx.1] at h1 h2
      cases hwv : weightVal cfg tel ss t.1 with
      | some w => simp [packStep, herr, hx, hwv, sliceUpd, h1, h2]
      | none => simp [packStep, herr, hx, hwv, sliceUpd, h1, h2]
    · cases hwv : weightVal cfg tel ss t.1 with
      | some w => simp [packStep, herr, hx, hwv, sliceUpd, h1]
      | none => simp [packStep, herr, hx, hwv, sliceUpd, h1]

theorem packFold_preserve (cfg : Config) (tel : Telescope) (ss : SStream) (n : ℕ)
    (p c b : ℕ) :
    ∀ (L : List (ℕ × ℕ × ℕ × ℤ)) (s : PackState),
      (∀ u ∈ L, ¬ writesCell cfg.intracyl n u p c b) → ∀ f r : ℕ,
      (L.foldl (packStep cfg tel ss n) s).vdr f p r c b = s.vdr f p r c b ∧
      (L.foldl (packStep cfg tel ss n) s).wgh f p r c b = s.wgh f p r c b ∧
      (L.foldl (packStep cfg tel ss n) s).smp f p r c b = s.smp f p r c b := by
  intro L
  induction L with
  | nil => intro s _ f r; exact ⟨rfl, rfl, rfl⟩
  | cons t L ih =>
    intro s hall f r
    have ht := packStep_preserve cfg tel ss n s t p c b (hall t (by simp)) f r
    have ihs := ih (packStep cfg tel ss n s t) (fun u hu => hall u (by simp [hu])) f r
    rw [List.foldl_cons]
    exact ⟨ihs.1.trans ht.1, ihs.2.1.trans ht.2.1, ihs.2.2.trans ht.2.2⟩

theorem packStep_writes_else (cfg : Config) (tel : Telescope) (ss : SStream) (n : ℕ)
    (s : PackState) (i p x : ℕ) (y : ℤ) (w : ℕ → ℕ → ℚ)
    (hs : s.err = none) (hwv : weightVal cfg tel ss i = some w)
    (hx : ¬(x = 0 ∧ cfg.intracyl = true)) (f r : ℕ) :
    (packStep cfg tel ss n s (i, p, x, y)).vdr f p r x (binIdx n y) = ss.vis f i r ∧
    (packStep cfg tel ss n s (i, p, x, y)).wgh f p r x (binIdx n y) = ss.weight f i r ∧
    (packStep cfg tel ss n s (i, p, x, y)).smp f p r x (binIdx n y) = w f r := by
  simp [packStep, hs, hx, hwv, sliceUpd]

theorem packStep_writes_intra (cfg : Config) (tel : Telescope) (ss : SStream) (n : ℕ)
    (s : PackState) (i p : ℕ) (y : ℤ) (w : ℕ → ℕ → ℚ)
    (hs : s.err = none) (hwv : weightVal cfg tel ss i = some w)
    (hicy : cfg.intracyl = true) (f r : ℕ) :
    (packStep cfg tel ss n s (i, p, 0, y)).vdr f p r 0 (binIdx n (-y))
      = (starRingEnd ℂ) (ss.vis f i r) ∧
    (packStep cfg tel ss n s (i, p, 0, y)).wgh f p r 0 (binIdx n (-y)) = ss.weight f i r ∧
    (packStep cfg tel ss n s (i, p, 0, y)).smp f p r 0 (binIdx n (-y)) = w f r := by
  simp [packStep, hs, hicy, hwv, sliceUpd]

theorem packStep_writes_intra_plus (cfg : Config) (tel : Telescope) (ss : SStream) (n : ℕ)
    (s : PackState) (i p : ℕ) (y : ℤ) (w : ℕ → ℕ → ℚ)
    (hs : s.err = none) (hwv : weightVal cfg tel ss i = some w)
    (hicy : cfg.intracyl = true) (hne : binIdx n y ≠ binIdx n (-y)) (f r : ℕ) :
    (packStep cfg tel ss n s (i, p, 0, y)).vdr f p r 0 (binIdx n y) = ss.vis f i r ∧
    (packStep cfg tel ss n s (i, p, 0, y)).wgh f p r 0 (binIdx n y) = ss.weight f i r ∧
    (packStep cfg tel ss n s (i, p, 0, y)).smp f p r 0 (binIdx n y) = w f r := by
  simp [packStep, hs, hicy, hwv, sliceUpd, hne]

theorem pack_mid_err (cfg : Config) (tel : Telescope) (ss : SStream) (n : ℕ)
    (hrec : recognized cfg) (L : List (ℕ × ℕ × ℕ × ℤ)) :
    (L.foldl (packStep cfg tel ss n) initPack).err = none :=
  packFold_err cfg tel ss n hrec L initPack

theorem pack_final (cfg : Config) (tel : Telescope) (ss : SStream)
    (L₁ L₂ : List (ℕ × ℕ × ℕ × ℤ)) (t : ℕ × ℕ × ℕ × ℤ)
    (hsplit : feedIndex (classify tel ss.prod) = L₁ ++ t :: L₂) (p c b : ℕ)
    (hlast : ∀ u ∈ L₂,
      ¬ writesCell cfg.intracyl (nvis1dOf (classify tel ss.prod)) u p c b)
    (f r : ℕ) :
    (packStage cfg tel ss).vdr f p r c b
      = (packStep cfg tel ss (nvis1dOf (classify tel ss.prod))
          (L₁.foldl (packStep cfg tel ss (nvis1dOf (classify tel ss.prod))) initPack) t).vdr
            f p r c b ∧
    (packStage cfg tel ss).wgh f p r c b
      = (packStep cfg tel ss (nvis1dOf (classify tel ss.prod))
          (L₁.foldl (packStep cfg tel ss (nvis1dOf (classify tel ss.prod))) initPack) t).wgh
            f p r c b ∧
    (packStage cfg tel ss).smp f p r c b
      = (packStep cfg tel ss (nvis1dOf (classify tel ss.prod))
          (L₁.foldl (packStep cfg tel ss (nvis1dOf (classify tel ss.prod))) initPack) t).smp
            f p r c b := by
  unfold packStage
  rw [hsplit, List.foldl_append, List.foldl_cons]
  exact packFold_preserve cfg tel ss _ p c b L₂ _ hlast f r

/-- A baseline whose packing iteration takes the plain (non conjugate-fill)
branch and whose cell no later iteration writes determines the final packed
values at that cell. -/
theorem pack_last_writer (cfg : Config) (tel : Telescope) (ss : SStream)
    (hrec : recognized cfg) (L₁ L₂ : List (ℕ × ℕ × ℕ × ℤ)) (i p x : ℕ) (y : ℤ)
    (hsplit : feedIndex (classify tel ss.prod) = L₁ ++ (i, p, x, y) :: L₂)
    (hx : ¬(x = 0 ∧ cfg.intracyl = true))
    (hlast : ∀ u ∈ L₂,
      ¬ writesCell cfg.intracyl (nvis1dOf (classify tel ss.prod)) u p x
        (binIdx (nvis1dOf (classify tel ss.prod)) y))
    (f r : ℕ) :
    (packStage cfg tel ss).vdr f p r x (binIdx (nvis1dOf (classify tel ss.prod)) y)
      = ss.vis f i r ∧
    (packStage cfg tel ss).wgh f p r x (binIdx (nvis1dOf (classify tel ss.prod)) y)
      = ss.weight f i r ∧
    (packStage cfg tel ss).smp f p r x (binIdx (nvis1dOf (classify tel ss.prod)) y)
      = wFun cfg tel ss i f r := by
  have hmid := pack_mid_err cfg tel ss (nvis1dOf (classify tel ss.prod)) hrec L₁
  have hfin := pack_final cfg tel ss L₁ L₂ (i, p, x, y) hsplit p x
    (binIdx (nvis1dOf (classify tel ss.prod)) y) hlast f r
  have hw := packStep_writes_else cfg tel ss (nvis1dOf (classify tel ss.prod)) _ i p x y
    (wFun cfg tel ss i) hmid (weightVal_recognized cfg tel ss hrec i) hx f r
  exact ⟨hfin.1.trans hw.1, hfin.2.1.trans hw.2.1, hfin.2.2.trans hw.2.2⟩

/-! Claim C2. -/

/-- C2 (counterexample): in dataset B the baselines (0,1) and (0,3) both map
to the grid cell (pol 0, cylinder 1, bin 1); the packed visibility there is
the second baseline's value 3, not the sum 2 + 3, and the packed coefficient
is 1, not 1 + 1. -/
theorem c2_sum_counterexample :
    (packStage cfgU4 exTelB exSSB).vdr 0 0 0 1 1 = 3 ∧ (3 : ℂ) ≠ 2 + 3 ∧
    (packStage cfgU4 exTelB exSSB).smp 0 0 0 1 1 = 1 ∧ (1 : ℚ) ≠ 1 + 1 := by
  refine ⟨?_, by norm_num, ?_, by norm_num⟩
  · unfold packStage
    rw [exB_feedIndex, exB_nvis]
    simp [List.foldl, packStep, weightVal, wFun, cfgU4, sliceUpd, initPack, exSSB,
      binIdx_3_1, binIdx_3_neg1, binIdx_3_2, binIdx_3_neg2]
  · unfold packStage
    rw [exB_feedIndex, exB_nvis]
    simp [List.foldl, packStep, weightVal, wFun, cfgU4, sliceUpd, initPack, exSSB,
      binIdx_3_1, binIdx_3_neg1, binIdx_3_2, binIdx_3_neg2]

/-- C2 (amended): when several baselines map to the same grid cell, the
packed visibility, weight and sample coefficient at that cell equal the
contribution of the last such baseline in the product list: each iteration
assigns into the cell, overwriting earlier contributions, so nothing is
summed.  Stated for a baseline taking the plain (non conjugate-fill) branch
whose cell no later iteration writes. -/
theorem c2_last_write_wins (cfg : Config) (tel : Telescope) (ss : SStream)
    (hrec : recognized cfg) (L₁ L₂ : List (ℕ × ℕ × ℕ × ℤ)) (i p x : ℕ) (y : ℤ)
    (hsplit : feedIndex (classify tel ss.prod) = L₁ ++ (i, p, x, y) :: L₂)
    (hx : ¬(x = 0 ∧ cfg.intracyl = true))
    (hlast : ∀ u ∈ L₂,
      ¬ writesCell cfg.intracyl (nvis1dOf (classify tel ss.prod)) u p x
        (binIdx (nvis1dOf (classify tel ss.prod)) y))
    (f r : ℕ) :
    (packStage cfg tel ss).vdr f p r x (binIdx (nvis1dOf (classify tel ss.prod)) y)
      = ss.vis f i r ∧
    (packStage cfg tel ss).wgh f p r x (binIdx (nvis1dOf (classify tel ss.prod)) y)
      = ss.weight f i r ∧
    (packStage cfg tel ss).smp f p r x (binIdx (nvis1dOf (classify tel ss.prod)) y)
      = wFun cfg tel ss i f r :=
  pack_last_writer cfg tel ss hrec L₁ L₂ i p x y hsplit hx hlast f r

/-- C2 (witness): the amended claim instantiated on dataset B, where the
last baseline writing cell (0, 1, bin 1) is baseline 2. -/
theorem c2_last_write_wins_witness :
    (packStage cfgU4 exTelB exSSB).vdr 0 0 0 1
      (binIdx (nvis1dOf (classify exTelB exSSB.prod)) 1) = exSSB.vis 0 2 0 ∧
    (packStage cfgU4 exTelB exSSB).wgh 0 0 0 1
      (binIdx (nvis1dOf (classify exTelB exSSB.prod)) 1) = exSSB.weight 0 2 0 ∧
    (packStage cfgU4 exTelB exSSB).smp 0 0 0 1
      (binIdx (nvis1dOf (classify exTelB exSSB.prod)) 1) = wFun cfgU4 exTelB exSSB 2 0 0 :=
  c2_last_write_wins cfgU4 exTelB exSSB (Or.inl rfl)
    [(0, 0, 1, 1), (1, 0, 1, 2)] [] 2 0 1 1 (by rw [exB_feedIndex]; rfl)
    (by decide) (by simp) 0 0

/-! Claim C4. -/

/-- C4 (counterexample): in dataset C the intra-cylinder baseline (2,3) has
row-separation bin `k = 0` and visibility `I`.  The claim asserts the packed
grid holds `v` at bin `+k` for every `k` including 0, but the conjugate
write lands on the same bin and overwrites, so the grid holds `conj v = -I`,
not `I`. -/
theorem c4_zero_bin_counterexample :
    (packStage cfgU4 exTelC exSSC).vdr 0 0 0 0 0 = -Complex.I ∧
    -Complex.I ≠ Complex.I ∧ exSSC.vis 0 2 0 = Complex.I := by
  refine ⟨?_, by simp [Complex.ext_iff]; norm_num, by simp [exSSC]⟩
  unfold packStage
  rw [exC_feedIndex, exC_nvis]
  simp [List.foldl, packStep, weightVal, wFun, cfgU4, sliceUpd, initPack, exSSC,
    binIdx_3_0, binIdx_3_1, binIdx_3_neg1, binIdx_3_2, binIdx_3_neg2]

/-- C4 (amended): for an intra-cylinder baseline with visibility `v` and
row-separation bin `k`, whose two cells no later iteration writes, the packed
grid holds `conj v` at bin `-k` with the weight and coefficient written
unmodified there; when the bins `+k` and `-k` are distinct (in particular
`k = 0` is excluded) the grid additionally holds `v` at bin `+k` with the
same weight and coefficient, so weight and coefficient agree at `±k`.  At
`k = 0` the two writes land on one bin and the conjugate write overwrites. -/
theorem c4_conjugate_fill (cfg : Config) (tel : Telescope) (ss : SStream)
    (hrec : recognized cfg) (hicy : cfg.intracyl = true)
    (L₁ L₂ : List (ℕ × ℕ × ℕ × ℤ)) (i p : ℕ) (y : ℤ)
    (hsplit : feedIndex (classify tel ss.prod) = L₁ ++ (i, p, 0, y) :: L₂)
    (hlast : ∀ u ∈ L₂,
      ¬ writesCell cfg.intracyl (nvis1dOf (classify tel ss.prod)) u p 0
          (binIdx (nvis1dOf (classify tel ss.prod)) y) ∧
      ¬ writesCell cfg.intracyl (nvis1dOf (classify tel ss.prod)) u p 0
          (binIdx (nvis1dOf (classify tel ss.prod)) (-y)))
    (f r : ℕ) :
    (packStage cfg tel ss).vdr f p r 0 (binIdx (nvis1dOf (classify tel ss.prod)) (-y))
      = (starRingEnd ℂ) (ss.vis f i r) ∧
    (packStage cfg tel ss).wgh f p r 0 (binIdx (nvis1dOf (classify tel ss.prod)) (-y))
      = ss.weight f i r ∧
    (packStage cfg tel ss).smp f p r 0 (binIdx (nvis1dOf (classify tel ss.prod)) (-y))
      = wFun cfg tel ss i f r ∧
    (binIdx (nvis1dOf (classify tel ss.prod)) y
        ≠ binIdx (nvis1dOf (classify tel ss.prod)) (-y) →
      (packStage cfg tel ss).vdr f p r 0 (binIdx (nvis1dOf (classify tel ss.prod)) y)
        = ss.vis f i r ∧
      (packStage cfg tel ss).wgh f p r 0 (binIdx (nvis1dOf (classify tel ss.prod)) y)
        = ss.weight f i r ∧
      (packStage cfg tel ss).smp f p r 0 (binIdx (nvis1dOf (classify tel ss.prod)) y)
        = wFun cfg tel ss i f r) := by
  have hmid := pack_mid_err cfg tel ss (nvis1dOf (classify tel ss.prod)) hrec L₁
  have hfinm := pack_final cfg tel ss L₁ L₂ (i, p, 0, y) hsplit p 0
    (binIdx (nvis1dOf (classify tel ss.prod)) (-y)) (fun u hu => (hlast u hu).2) f r
  have hwm := packStep_writes_intra cfg tel ss (nvis1dOf (classify tel ss.prod)) _ i p y
    (wFun cfg tel ss i) hmid (weightVal_recognized cfg tel ss hrec i) hicy f r
  refine ⟨hfinm.1.trans hwm.1, hfinm.2.1.trans hwm.2.1, hfinm.2.2.trans hwm.2.2, ?_⟩
  intro hne
  have hfinp := pack_final cfg tel ss L₁ L₂ (i, p, 0, y) hsplit p 0
    (binIdx (nvis1dOf (classify tel ss.prod)) y) (fun u hu => (hlast u hu).1) f r
  have hwp := packStep_writes_intra_plus cfg tel ss (nvis1dOf (classify tel ss.prod)) _ i p y
    (wFun cfg tel ss i) hmid (weightVal_recognized cfg tel ss hrec i) hicy hne f r
  exact ⟨hfinp.1.trans hwp.1, hfinp.2.1.trans hwp.2.1, hfinp.2.2.trans hwp.2.2⟩

/-- C4 (witness): the amended claim on dataset A, baseline 2 with bin
`k = 2`: the grid holds `conj v` at bin `-k`, `v` at bin `+k`, and equal
weights and coefficients at `±k`. -/
theorem c4_conjugate_fill_witness :
    (packStage cfgU4 exTelA exSSA).vdr 0 0 0 0
      (binIdx (nvis1dOf (classify exTelA exSSA.prod)) (-2))
      = (starRingEnd ℂ) (exSSA.vis 0 2 0) ∧
    (packStage cfgU4 exTelA exSSA).vdr 0 0 0 0
      (binIdx (nvis1dOf (classify exTelA exSSA.prod)) 2)
      = exSSA.vis 0 2 0 ∧
    (packStage cfgU4 exTelA exSSA).wgh 0 0 0 0
      (binIdx (nvis1dOf (classify exTelA exSSA.prod)) 2)
      = (packStage cfgU4 exTelA exSSA).wgh 0 0 0 0
          (binIdx (nvis1dOf (classify exTelA exSSA.prod)) (-2)) ∧
    (packStage cfgU4 exTelA exSSA).smp 0 0 0 0
      (binIdx (nvis1dOf (classify exTelA exSSA.prod)) 2)
      = (packStage cfgU4 exTelA exSSA).smp 0 0 0 0
          (binIdx (nvis1dOf (classify exTelA exSSA.prod)) (-2)) := by
  have h := c4_conjugate_fill cfgU4 exTelA exSSA (Or.inl rfl) rfl
    [(0, 0, 0, 1), (1, 0, 0, 1)] [] 2 0 2 (by rw [exA_feedIndex]; rfl) (by simp) 0 0
  have hne : binIdx (nvis1dOf (classify exTelA exSSA.prod)) 2
      ≠ binIdx (nvis1dOf (classify exTelA exSSA.prod)) (-2) := by
    rw [exA_nvis]; decide
  obtain ⟨h1, h2, h3, h4⟩ := h
  obtain ⟨h5, h6, h7⟩ := h4 hne
  exact ⟨h1, h5, by rw [h6, h2], by rw [h7, h3]⟩

/-! Claim C1. -/

/-- The unrecognized weighting of `cfgFoo` yields no `w` value. -/
theorem weightVal_foo (tel : Telescope) (ss : SStream) (i : ℕ) :
    weightVal cfgFoo tel ss i = none := rfl

theorem cfgFoo_intracyl : cfgFoo.intracyl = true := rfl

/-- C1: with the unrecognized weighting "foo" the run does not fail with a
configuration error before touching the grids.  Line 147 constructs a
`KeyError` without raising it, so the loop writes the first baseline's
visibility and weight into the grid and only then fails, with a NameError on
the unbound `w` at the coefficient write. -/
theorem c1_unrecognized_weighting_writes_then_fails :
    process cfgFoo exTelA exSSA = Except.error PyErr.nameError ∧
    (packStage cfgFoo exTelA exSSA).vdr 0 0 0 0 1 = exSSA.vis 0 0 0 ∧
    (packStage cfgFoo exTelA exSSA).wgh 0 0 0 0 1 = exSSA.weight 0 0 0 ∧
    exSSA.vis 0 0 0 ≠ 0 := by
  have herr : (packStage cfgFoo exTelA exSSA).err = some PyErr.nameError := by
    unfold packStage
    rw [exA_feedIndex, exA_nvis]
    simp [List.foldl, packStep, weightVal_foo, cfgFoo_intracyl, initPack, sliceUpd,
      binIdx_3_1, binIdx_3_neg1, binIdx_3_2, binIdx_3_neg2]
  have hne : nonzeroAbsYsep (ysepList (classify exTelA exSSA.prod)) ≠ [] := by
    rw [exA_classify]; decide
  refine ⟨?_, ?_, ?_, by simp [exSSA]⟩
  · unfold process
    rw [if_neg hne, herr]
  · unfold packStage
    rw [exA_feedIndex, exA_nvis]
    simp [List.foldl, packStep, weightVal_foo, cfgFoo_intracyl, initPack, sliceUpd, exSSA,
      binIdx_3_1, binIdx_3_neg1, binIdx_3_2, binIdx_3_neg2]
  · unfold packStage
    rw [exA_feedIndex, exA_nvis]
    simp [List.foldl, packStep, weightVal_foo, cfgFoo_intracyl, initPack, sliceUpd, exSSA,
      binIdx_3_1, binIdx_3_neg1, binIdx_3_2, binIdx_3_neg2]

/-! Claim C9. -/

/-- C9: with `intracyl = True` the sample coefficient at
(cylinder separation 0, row-separation bin 0) is exactly zero after packing
(line 169), for every frequency, polarisation and time sample, whatever the
input values; it stays zero after normalization. -/
theorem c9_zero_spacing_excluded (cfg : Config) (tel : Telescope) (ss : SStream)
    (hicy : cfg.intracyl = true) (f p r : ℕ) :
    smpZeroed cfg tel ss f p r 0 0 = 0 ∧ smpNorm cfg tel ss f p r 0 0 = 0 := by
  have h : smpZeroed cfg tel ss f p r 0 0 = 0 := by simp [smpZeroed, hicy]
  exact ⟨h, by simp [smpNorm, h]⟩

/-- C9 (witness): the zero-spacing exclusion on dataset A. -/
theorem c9_zero_spacing_excluded_witness :
    smpZeroed cfgU4 exTelA exSSA 0 0 0 0 0 = 0 ∧
    smpNorm cfgU4 exTelA exSSA 0 0 0 0 0 = 0 :=
  c9_zero_spacing_excluded cfgU4 exTelA exSSA rfl 0 0 0

/-! Claim C5. -/

/-- C5: when every baseline's row separation vanishes (all feeds at the same
row position), the classifier's percentile input is empty and the run
signals the geometry error before any output container is constructed, and
in particular never divides by a zero `min_ysep`. -/
theorem c5_all_zero_row_separation_errors (cfg : Config) (tel : Telescope)
    (ss : SStream)
    (hy : ∀ q ∈ ss.prod, (tel.feeds q.1).posY = (tel.feeds q.2).posY) :
    process cfg tel ss = Except.error PyErr.geometryError := by
  have hempty : nonzeroAbsYsep (ysepList (classify tel ss.prod)) = [] := by
    unfold nonzeroAbsYsep ysepList classify
    rw [List.filter_eq_nil_iff]
    intro a ha
    simp only [List.mem_map] at ha
    obtain ⟨y, ⟨t, ⟨u, hu, rfl⟩, rfl⟩, rfl⟩ := ha
    simp [hy u hu]
  unfold process
  rw [if_pos hempty]

/-- C5 (witness): dataset Z puts every feed at row position 0 and the run
returns the geometry error. -/
theorem c5_all_zero_row_separation_errors_witness :
    process cfgU4 exTelZ exSSZ = Except.error PyErr.geometryError :=
  c5_all_zero_row_separation_errors cfgU4 exTelZ exSSZ (fun _ _ => rfl)

/-! Claim C10. -/

/-- C10: with `intracyl = False` intra-cylinder baselines are not excluded:
a cylinder-separation-0 baseline still writes its visibility, weight and
coefficient at cylinder index 0 (only at the `+bin` entry — a packing step
of such a baseline leaves every other cell untouched, so there is no
conjugate fill), the coefficient at (0, 0) is not zeroed, and the cylinder
weighting vector keeps the value 2 at separation 0, through which the
intra-cylinder data enters the map, dirty beam and RMS sums. -/
theorem c10_intracyl_false_still_included (cfg : Config) (tel : Telescope)
    (ss : SStream) (hicy : cfg.intracyl = false) (hrec : recognized cfg) :
    (∀ (L₁ L₂ : List (ℕ × ℕ × ℕ × ℤ)) (i p : ℕ) (y : ℤ) (f r : ℕ),
      feedIndex (classify tel ss.prod) = L₁ ++ (i, p, 0, y) :: L₂ →
      (∀ u ∈ L₂, ¬ writesCell cfg.intracyl (nvis1dOf (classify tel ss.prod)) u p 0
          (binIdx (nvis1dOf (classify tel ss.prod)) y)) →
      (packStage cfg tel ss).vdr f p r 0 (binIdx (nvis1dOf (classify tel ss.prod)) y)
        = ss.vis f i r ∧
      (packStage cfg tel ss).wgh f p r 0 (binIdx (nvis1dOf (classify tel ss.prod)) y)
        = ss.weight f i r ∧
      (packStage cfg tel ss).smp f p r 0 (binIdx (nvis1dOf (classify tel ss.prod)) y)
        = wFun cfg tel ss i f r) ∧
    (∀ (n : ℕ) (s : PackState) (i p : ℕ) (y : ℤ) (f pp r cc bb : ℕ),
      ¬(pp = p ∧ cc = 0 ∧ bb = binIdx n y) →
      (packStep cfg tel ss n s (i, p, 0, y)).vdr f pp r cc bb = s.vdr f pp r cc bb ∧
      (packStep cfg tel ss n s (i, p, 0, y)).wgh f pp r cc bb = s.wgh f pp r cc bb ∧
      (packStep cfg tel ss n s (i, p, 0, y)).smp f pp r cc bb = s.smp f pp r cc bb) ∧
    (∀ f p r : ℕ, smpZeroed cfg tel ss f p r 0 0 = (packStage cfg tel ss).smp f p r 0 0) ∧
    coeffVec cfg 0 = 2 := by
  refine ⟨?_, ?_, ?_, ?_⟩
  · intro L₁ L₂ i p y f r hsplit hlast
    exact pack_last_writer cfg tel ss hrec L₁ L₂ i p 0 y hsplit
      (by simp [hicy]) hlast f r
  · intro n s i p y f pp r cc bb hnw
    refine packStep_preserve cfg tel ss n s (i, p, 0, y) pp cc bb ?_ f r
    unfold writesCell
    rw [hicy]
    simp only [Bool.false_eq_true, false_and, and_false, or_false]
    exact hnw
  · intro f p r
    simp [smpZeroed, hicy]
  · simp [coeffVec, hicy]

/-- C10 (witness): with `intracyl = False` on dataset A the coefficient at
(0, 0) is the packed value, not zeroed, and the cylinder weight at 0 is 2. -/
theorem c10_intracyl_false_still_included_witness :
    smpZeroed cfgUF4 exTelA exSSA 0 0 0 0 0
      = (packStage cfgUF4 exTelA exSSA).smp 0 0 0 0 0 ∧
    coeffVec cfgUF4 0 = 2 :=
  ⟨(c10_intracyl_false_still_included cfgUF4 exTelA exSSA rfl (Or.inl rfl)).2.2.1 0 0 0,
   (c10_intracyl_false_still_included cfgUF4 exTelA exSSA rfl (Or.inl rfl)).2.2.2⟩

/-! Claim C3. -/

/-- C3: after the weight normalizer, the cylinder-weighted total coefficient
mass of every (freq, pol, time) pixel is exactly 1 when the pre-normalization
total is nonzero and exactly 0 when it is zero; the zero-guarded inverse
produces a zero pixel, never a division error. -/
theorem c3_normalized_mass (cfg : Config) (tel : Telescope) (ss : SStream)
    (f p r : ℕ) :
    ((∑ cc ∈ Finset.range (ncylOf (classify tel ss.prod)), coeffVec cfg cc *
        ∑ b ∈ Finset.range (nvis1dOf (classify tel ss.prod)),
          smpZeroed cfg tel ss f p r cc b) ≠ 0 →
      (∑ cc ∈ Finset.range (ncylOf (classify tel ss.prod)), coeffVec cfg cc *
        ∑ b ∈ Finset.range (nvis1dOf (classify tel ss.prod)),
          smpNorm cfg tel ss f p r cc b) = 1) ∧
    ((∑ cc ∈ Finset.range (ncylOf (classify tel ss.prod)), coeffVec cfg cc *
        ∑ b ∈ Finset.range (nvis1dOf (classify tel ss.prod)),
          smpZeroed cfg tel ss f p r cc b) = 0 →
      (∑ cc ∈ Finset.range (ncylOf (classify tel ss.prod)), coeffVec cfg cc *
        ∑ b ∈ Finset.range (nvis1dOf (classify tel ss.prod)),
          smpNorm cfg tel ss f p r cc b) = 0) := by
  have hpre : preTotal cfg tel ss f p r
      = ∑ cc ∈ Finset.range (ncylOf (classify tel ss.prod)), coeffVec cfg cc *
          ∑ b ∈ Finset.range (nvis1dOf (classify tel ss.prod)),
            smpZeroed cfg tel ss f p r cc b := by
    unfold preTotal
    rw [Finset.sum_comm]
    exact Finset.sum_congr rfl fun cc _ => (Finset.mul_sum _ _ _).symm
  have key : (∑ cc ∈ Finset.range (ncylOf (classify tel ss.prod)), coeffVec cfg cc *
      ∑ b ∈ Finset.range (nvis1dOf (classify tel ss.prod)),
        smpNorm cfg tel ss f p r cc b)
      = (∑ cc ∈ Finset.range (ncylOf (classify tel ss.prod)), coeffVec cfg cc *
          ∑ b ∈ Finset.range (nvis1dOf (classify tel ss.prod)),
            smpZeroed cfg tel ss f p r cc b) *
        invert_no_zero (preTotal cfg tel ss f p r) := by
    simp only [smpNorm]
    rw [Finset.sum_mul]
    refine Finset.sum_congr rfl fun cc _ => ?_
    rw [← Finset.sum_mul, mul_assoc]
  constructor
  · intro h
    have h' : preTotal cfg tel ss f p r ≠ 0 := by rw [hpre]; exact h
    rw [key, ← hpre]
    unfold invert_no_zero
    rw [if_neg h']
    exact mul_inv_cancel₀ h'
  · intro h
    rw [key, h, zero_mul]

theorem cfgU4_intracyl : cfgU4.intracyl = true := rfl

/-- The packed coefficient of dataset A at (cyl 0, bin 1) is 1. -/
theorem exA_smp_b1 : (packStage cfgU4 exTelA exSSA).smp 0 0 0 0 1 = 1 := by
  unfold packStage
  rw [exA_feedIndex, exA_nvis]
  simp [List.foldl, packStep, weightVal, wFun, cfgU4, sliceUpd, initPack,
    binIdx_3_1, binIdx_3_neg1, binIdx_3_2, binIdx_3_neg2]

/-- The packed coefficient of dataset A at (cyl 0, bin 2) is 1. -/
theorem exA_smp_b2 : (packStage cfgU4 exTelA exSSA).smp 0 0 0 0 2 = 1 := by
  unfold packStage
  rw [exA_feedIndex, exA_nvis]
  simp [List.foldl, packStep, weightVal, wFun, cfgU4, sliceUpd, initPack,
    binIdx_3_1, binIdx_3_neg1, binIdx_3_2, binIdx_3_neg2]

/-- C3 (witness): on dataset A the pre-normalization total is 2 and the
normalized total coefficient mass of pixel (0, 0, 0) is exactly 1. -/
theorem c3_normalized_mass_witness :
    (∑ cc ∈ Finset.range (ncylOf (classify exTelA exSSA.prod)), coeffVec cfgU4 cc *
      ∑ b ∈ Finset.range (nvis1dOf (classify exTelA exSSA.prod)),
        smpNorm cfgU4 exTelA exSSA 0 0 0 cc b) = 1 := by
  have hz : smpZeroed cfgU4 exTelA exSSA 0 0 0 0 0 = 0 := by
    simp [smpZeroed, cfgU4_intracyl]
  have h1 : smpZeroed cfgU4 exTelA exSSA 0 0 0 0 1 = 1 := by
    simp only [smpZeroed]
    rw [if_neg (by simp)]
    exact exA_smp_b1
  have h2 : smpZeroed cfgU4 exTelA exSSA 0 0 0 0 2 = 1 := by
    simp only [smpZeroed]
    rw [if_neg (by simp)]
    exact exA_smp_b2
  have hne : (∑ cc ∈ Finset.range (ncylOf (classify exTelA exSSA.prod)),
      coeffVec cfgU4 cc *
      ∑ b ∈ Finset.range (nvis1dOf (classify exTelA exSSA.prod)),
        smpZeroed cfgU4 exTelA exSSA 0 0 0 cc b) ≠ 0 := by
    rw [exA_ncyl, exA_nvis, Finset.sum_range_one, Finset.sum_range_succ,
      Finset.sum_range_succ, Finset.sum_range_one, hz, h1, h2]
    norm_num [coeffVec, cfgU4_intracyl]
  exact (c3_normalized_mass cfgU4 exTelA exSSA 0 0 0).1 hne

/-! Claim C6. -/

theorem withWeighting_intracyl (cfg : Config) (w : String) :
    ({ cfg with weighting := w } : Config).intracyl = cfg.intracyl := rfl

theorem packStep_congr (cfg₁ cfg₂ : Config) (tel : Telescope) (ss : SStream) (n : ℕ)
    (hicy : cfg₁.intracyl = cfg₂.intracyl)
    (hwv : ∀ i, weightVal cfg₁ tel ss i = weightVal cfg₂ tel ss i) :
    packStep cfg₁ tel ss n = packStep cfg₂ tel ss n := by
  funext s t
  cases herr : s.err with
  | some e => simp [packStep, herr]
  | none =>
    by_cases hx : t.2.2.1 = 0 ∧ cfg₂.intracyl = true
    · simp [packStep, herr, hicy, hx, hwv t.1]
    · simp [packStep, herr, hicy, hx, hwv t.1]

theorem packStage_natural_eq_uniform (cfg : Config) (tel : Telescope) (ss : SStream)
    (hred : ∀ i, tel.redundancy i = 1) :
    packStage { cfg with weighting := "natural" } tel ss
      = packStage { cfg with weighting := "uniform" } tel ss := by
  unfold packStage
  rw [packStep_congr { cfg with weighting := "natural" }
    { cfg with weighting := "uniform" } tel ss _ rfl ?_]
  intro i
  rw [weightVal_recognized _ tel ss (Or.inr (Or.inl rfl)) i,
    weightVal_recognized _ tel ss (Or.inl rfl) i]
  congr 1
  funext f r
  simp only [wFun]
  norm_num [hred i]

theorem sliceUpd_scale (g₁ g₂ : Grid ℚ) (p0 c0 b0 : ℕ) (v₁ v₂ : ℕ → ℕ → ℚ) (q : ℚ)
    (hg : ∀ f p r c b, g₂ f p r c b = q * g₁ f p r c b)
    (hv : ∀ f r, v₂ f r = q * v₁ f r) (f p r c b : ℕ) :
    sliceUpd g₂ p0 c0 b0 v₂ f p r c b = q * sliceUpd g₁ p0 c0 b0 v₁ f p r c b := by
  unfold sliceUpd
  by_cases h : p = p0 ∧ c = c0 ∧ b = b0
  · rw [if_pos h, if_pos h]; exact hv f r
  · rw [if_neg h, if_neg h]; exact hg f p r c b

theorem packStep_iv_scale (cfg : Config) (tel : Telescope) (ss : SStream) (n : ℕ)
    (q : ℚ) (hw : ∀ f i r, ss.weight f i r = q)
    (s₁ s₂ : PackState) (t : ℕ × ℕ × ℕ × ℤ)
    (hvdr : s₂.vdr = s₁.vdr) (hwgh : s₂.wgh = s₁.wgh) (herr : s₂.err = s₁.err)
    (hsmp : ∀ f p r c b, s₂.smp f p r c b = q * s₁.smp f p r c b) :
    (packStep { cfg with weighting := "inverse_variance" } tel ss n s₂ t).vdr
      = (packStep { cfg with weighting := "uniform" } tel ss n s₁ t).vdr ∧
    (packStep { cfg with weighting := "inverse_variance" } tel ss n s₂ t).wgh
      = (packStep { cfg with weighting := "uniform" } tel ss n s₁ t).wgh ∧
    (packStep { cfg with weighting := "inverse_variance" } tel ss n s₂ t).err
      = (packStep { cfg with weighting := "uniform" } tel ss n s₁ t).err ∧
    ∀ f p r c b : ℕ,
      (packStep { cfg with weighting := "inverse_variance" } tel ss n s₂ t).smp f p r c b
        = q * (packStep { cfg with weighting := "uniform" } tel ss n s₁ t).smp f p r c b := by
  have hv : ∀ f r, wFun { cfg with weighting := "inverse_variance" } tel ss t.1 f r
      = q * wFun { cfg with weighting := "uniform" } tel ss t.1 f r := by
    intro f r
    simp only [wFun]
    rw [hw f t.1 r]
    norm_num [(by decide : ("inverse_variance" : String) ≠ "uniform"),
      (by decide : ("inverse_variance" : String) ≠ "natural")]
  cases herr1 : s₁.err with
  | some e =>
    have herr2 : s₂.err = some e := herr.trans herr1
    have e1 : packStep { cfg with weighting := "inverse_variance" } tel ss n s₂ t = s₂ := by
      simp [packStep, herr2]
    have e2 : packStep { cfg with weighting := "uniform" } tel ss n s₁ t = s₁ := by
      simp [packStep, herr1]
    rw [e1, e2]
    exact ⟨hvdr, hwgh, herr, hsmp⟩
  | none =>
    have herr2 : s₂.err = none := herr.trans herr1
    have hwv2 := weightVal_recognized { cfg with weighting := "inverse_variance" } tel ss
      (Or.inr (Or.inr rfl)) t.1
    have hwv1 := weightVal_recognized { cfg with weighting := "uniform" } tel ss
      (Or.inl rfl) t.1
    by_cases hx : t.2.2.1 = 0 ∧ cfg.intracyl = true
    · refine ⟨?_, ?_, ?_, ?_⟩
      · simp only [packStep, herr1, herr2, hwv2, hwv1, withWeighting_intracyl, if_pos hx]
        rw [hvdr]
      · simp only [packStep, herr1, herr2, hwv2, hwv1, withWeighting_intracyl, if_pos hx]
        rw [hwgh]
      · simp only [packStep, herr1, herr2, hwv2, hwv1, withWeighting_intracyl, if_pos hx]
      · intro f p r c b
        simp only [packStep, herr1, herr2, hwv2, hwv1, withWeighting_intracyl, if_pos hx]
        exact sliceUpd_scale _ _ _ _ _ _ _ q
          (fun f p r c b => sliceUpd_scale _ _ _ _ _ _ _ q hsmp hv f p r c b) hv f p r c b
    · refine ⟨?_, ?_, ?_, ?_⟩
      · simp only [packStep, herr1, herr2, hwv2, hwv1, withWeighting_intracyl, if_neg hx]
        rw [hvdr]
      · simp only [packStep, herr1, herr2, hwv2, hwv1, withWeighting_intracyl, if_neg hx]
        rw [hwgh]
      · simp only [packStep, herr1, herr2, hwv2, hwv1, withWeighting_intracyl, if_neg hx]
      · intro f p r c b
        simp only [packStep, herr1, herr2, hwv2, hwv1, withWeighting_intracyl, if_neg hx]
        exact sliceUpd_scale _ _ _ _ _ _ _ q hsmp hv f p r c b

theorem packFold_iv_scale (cfg : Config) (tel : Telescope) (ss : SStream) (n : ℕ)
    (q : ℚ) (hw : ∀ f i r, ss.weight f i r = q) :
    ∀ (L : List (ℕ × ℕ × ℕ × ℤ)) (s₁ s₂ : PackState),
      s₂.vdr = s₁.vdr → s₂.wgh = s₁.wgh → s₂.err = s₁.err →
      (∀ f p r c b, s₂.smp f p r c b = q * s₁.smp f p r c b) →
      (L.foldl (packStep { cfg with weighting := "inverse_variance" } tel ss n) s₂).vdr
        = (L.foldl (packStep { cfg with weighting := "uniform" } tel ss n) s₁).vdr ∧
      (L.foldl (packStep { cfg with weighting := "inverse_variance" } tel ss n) s₂).wgh
        = (L.foldl (packStep { cfg with weighting := "uniform" } tel ss n) s₁).wgh ∧
      (L.foldl (packStep { cfg with weighting := "inverse_variance" } tel ss n) s₂).err
        = (L.foldl (packStep { cfg with weighting := "uniform" } tel ss n) s₁).err ∧
      ∀ f p r c b : ℕ,
        (L.foldl (packStep { cfg with weighting := "inverse_variance" } tel ss n) s₂).smp
            f p r c b
          = q * (L.foldl (packStep { cfg with weighting := "uniform" } tel ss n) s₁).smp
              f p r c b := by
  intro L
  induction L with
  | nil => intro s₁ s₂ h1 h2 h3 h4; exact ⟨h1, h2, h3, h4⟩
  | cons t L ih =>
    intro s₁ s₂ h1 h2 h3 h4
    have hstep := packStep_iv_scale cfg tel ss n q hw s₁ s₂ t h1 h2 h3 h4
    simp only [List.foldl_cons]
    exact ih _ _ hstep.1 hstep.2.1 hstep.2.2.1 hstep.2.2.2

theorem packStage_iv_scale (cfg : Config) (tel : Telescope) (ss : SStream)
    (q : ℚ) (hw : ∀ f i r, ss.weight f i r = q) :
    (packStage { cfg with weighting := "inverse_variance" } tel ss).vdr
      = (packStage { cfg with weighting := "uniform" } tel ss).vdr ∧
    (packStage { cfg with weighting := "inverse_variance" } tel ss).wgh
      = (packStage { cfg with weighting := "uniform" } tel ss).wgh ∧
    (packStage { cfg with weighting := "inverse_variance" } tel ss).err
      = (packStage { cfg with weighting := "uniform" } tel ss).err ∧
    ∀ f p r c b : ℕ,
      (packStage { cfg with weighting := "inverse_variance" } tel ss).smp f p r c b
        = q * (packStage { cfg with weighting := "uniform" } tel ss).smp f p r c b := by
  unfold packStage
  exact packFold_iv_scale cfg tel ss _ q hw _ initPack initPack rfl rfl rfl
    (by intro f p r c b; simp [initPack])

theorem invert_no_zero_scale (q x : ℚ) (hq : q ≠ 0) :
    invert_no_zero (q * x) = q⁻¹ * invert_no_zero x := by
  unfold invert_no_zero
  by_cases hx : x = 0
  · simp [hx]
  · rw [if_neg (mul_ne_zero hq hx), if_neg hx, mul_inv]

theorem smpNorm_congr_of_pack (cfg₁ cfg₂ : Config) (tel : Telescope) (ss : SStream)
    (hicy : cfg₁.intracyl = cfg₂.intracyl)
    (hsmp : (packStage cfg₁ tel ss).smp = (packStage cfg₂ tel ss).smp) :
    smpNorm cfg₁ tel ss = smpNorm cfg₂ tel ss := by
  have hz : smpZeroed cfg₁ tel ss = smpZeroed cfg₂ tel ss := by
    funext f p r c b
    unfold smpZeroed
    rw [hicy, hsmp]
  have hcv : coeffVec cfg₁ = coeffVec cfg₂ := by
    funext c
    unfold coeffVec
    rw [hicy]
  have hp : preTotal cfg₁ tel ss = preTotal cfg₂ tel ss := by
    funext f p r
    unfold preTotal
    simp only [hz, hcv]
  funext f p r c b
  unfold smpNorm
  rw [hz, hp]

theorem smpNorm_iv_eq_uniform (cfg : Config) (tel : Telescope) (ss : SStream)
    (q : ℚ) (hq : q ≠ 0) (hw : ∀ f i r, ss.weight f i r = q) :
    smpNorm { cfg with weighting := "inverse_variance" } tel ss
      = smpNorm { cfg with weighting := "uniform" } tel ss := by
  have hscale := (packStage_iv_scale cfg tel ss q hw).2.2.2
  have hz : ∀ f p r c b,
      smpZeroed { cfg with weighting := "inverse_variance" } tel ss f p r c b
        = q * smpZeroed { cfg with weighting := "uniform" } tel ss f p r c b := by
    intro f p r c b
    unfold smpZeroed
    rw [withWeighting_intracyl, withWeighting_intracyl]
    by_cases h : cfg.intracyl = true ∧ c = 0 ∧ b = 0
    · rw [if_pos h, if_pos h, mul_zero]
    · rw [if_neg h, if_neg h]
      exact hscale f p r c b
  have hcv : coeffVec { cfg with weighting := "inverse_variance" }
      = coeffVec { cfg with weighting := "uniform" } := rfl
  have hpre : ∀ f p r,
      preTotal { cfg with weighting := "inverse_variance" } tel ss f p r
        = q * preTotal { cfg with weighting := "uniform" } tel ss f p r := by
    intro f p r
    unfold preTotal
    rw [Finset.mul_sum]
    refine Finset.sum_congr rfl fun b _ => ?_
    rw [Finset.mul_sum]
    refine Finset.sum_congr rfl fun cc _ => ?_
    rw [hz, hcv]
    ring
  funext f p r c b
  unfold smpNorm
  rw [hz, hpre, invert_no_zero_scale q _ hq, mul_mul_mul_comm, mul_inv_cancel₀ hq,
    one_mul]

theorem process_eq_of_parts (cfg₁ cfg₂ : Config) (tel : Telescope) (ss : SStream)
    (hnp : cfg₁.npix = cfg₂.npix) (hsp : cfg₁.span = cfg₂.span)
    (hicy : cfg₁.intracyl = cfg₂.intracyl)
    (hvdr : (packStage cfg₁ tel ss).vdr = (packStage cfg₂ tel ss).vdr)
    (hwgh : (packStage cfg₁ tel ss).wgh = (packStage cfg₂ tel ss).wgh)
    (herr : (packStage cfg₁ tel ss).err = (packStage cfg₂ tel ss).err)
    (hsn : smpNorm cfg₁ tel ss = smpNorm cfg₂ tel ss) :
    process cfg₁ tel ss = process cfg₂ tel ss := by
  have hel : elGrid cfg₁ = elGrid cfg₂ := by
    funext px
    unfold elGrid
    rw [hnp, hsp]
  have hcv : coeffVec cfg₁ = coeffVec cfg₂ := by
    funext c
    unfold coeffVec
    rw [hicy]
  have hpa : paMat cfg₁ tel ss = paMat cfg₂ tel ss := by
    funext f b px
    unfold paMat
    rw [hel]
  have hmap : mapOut cfg₁ tel ss = mapOut cfg₂ tel ss := by
    funext f p r beam px
    unfold mapOut
    simp only [hsn, hvdr, hpa]
  have hdirty : dirtyOut cfg₁ tel ss = dirtyOut cfg₂ tel ss := by
    funext f p r beam px
    unfold dirtyOut
    simp only [hsn, hpa]
  have hrms : rmsOut cfg₁ tel ss = rmsOut cfg₂ tel ss := by
    funext f p r
    unfold rmsOut
    simp only [hsn, hwgh, hcv]
  unfold process
  simp only [herr, hel, hrms, hmap, hdirty]

/-- C6: with all redundancies 1 and every weight sample equal to one common
positive constant, the `uniform`, `natural` and `inverse_variance` schemes
produce identical normalized coefficient grids and identical outputs (map,
dirty beam and the rest of the ring map). -/
theorem c6_weighting_equivalence (cfg : Config) (tel : Telescope) (ss : SStream)
    (q : ℚ) (hq : 0 < q)
    (hred : ∀ i, tel.redundancy i = 1)
    (hw : ∀ f i r, ss.weight f i r = q) :
    smpNorm { cfg with weighting := "natural" } tel ss
      = smpNorm { cfg with weighting := "uniform" } tel ss ∧
    smpNorm { cfg with weighting := "inverse_variance" } tel ss
      = smpNorm { cfg with weighting := "uniform" } tel ss ∧
    process { cfg with weighting := "natural" } tel ss
      = process { cfg with weighting := "uniform" } tel ss ∧
    process { cfg with weighting := "inverse_variance" } tel ss
      = process { cfg with weighting := "uniform" } tel ss := by
  have hpackN := packStage_natural_eq_uniform cfg tel ss hred
  have hsnN : smpNorm { cfg with weighting := "natural" } tel ss
      = smpNorm { cfg with weighting := "uniform" } tel ss :=
    smpNorm_congr_of_pack _ _ tel ss rfl (by rw [hpackN])
  have hiv := packStage_iv_scale cfg tel ss q hw
  have hsnIV := smpNorm_iv_eq_uniform cfg tel ss q (ne_of_gt hq) hw
  refine ⟨hsnN, hsnIV, ?_, ?_⟩
  · exact process_eq_of_parts _ _ tel ss rfl rfl rfl (by rw [hpackN]) (by rw [hpackN])
      (by rw [hpackN]) hsnN
  · exact process_eq_of_parts _ _ tel ss rfl rfl rfl hiv.1 hiv.2.1 hiv.2.2.1 hsnIV

/-- C6 (witness): on dataset A (all redundancies 1, all weights 1) the three
schemes give the same `process` output. -/
theorem c6_weighting_equivalence_witness :
    process { cfgU4 with weighting := "inverse_variance" } exTelA exSSA
      = process { cfgU4 with weighting := "uniform" } exTelA exSSA ∧
    process { cfgU4 with weighting := "natural" } exTelA exSSA
      = process { cfgU4 with weighting := "uniform" } exTelA exSSA :=
  ⟨(c6_weighting_equivalence cfgU4 exTelA exSSA 1 one_pos (fun _ => rfl)
      (fun _ _ _ => rfl)).2.2.2,
   (c6_weighting_equivalence cfgU4 exTelA exSSA 1 one_pos (fun _ => rfl)
      (fun _ _ _ => rfl)).2.2.1⟩

/-! Claims C7 and C8. -/

/-- C7: per frequency, the sky map is the length-`nbeam` inverse real FFT
(scaled by `nbeam`) of the normalized coefficient times visibility times the
phase matrix `exp(2 pi i vis_pos_1d[b] el[px] / wavelength)` summed over
row-separation bins, and the dirty beam is the identical transform without
the visibility factor. -/
theorem c7_synthesis_formulas (cfg : Config) (tel : Telescope) (ss : SStream)
    (f p r beam px : ℕ) :
    mapOut cfg tel ss f p r beam px
      = irfftN (nbeamOf (classify tel ss.prod))
          (fun cy => ∑ b ∈ Finset.range (nvis1dOf (classify tel ss.prod)),
            ((smpNorm cfg tel ss f p r cy b : ℚ) : ℂ) *
              (packStage cfg tel ss).vdr f p r cy b *
              Complex.exp (2 * (Real.pi : ℂ) * Complex.I *
                ((visPos1d (classify tel ss.prod) b : ℚ) : ℂ) *
                ((elGrid cfg px : ℚ) : ℂ) / ((waveLen (ss.freq f) : ℚ) : ℂ)))
          beam * (nbeamOf (classify tel ss.prod) : ℝ) ∧
    dirtyOut cfg tel ss f p r beam px
      = irfftN (nbeamOf (classify tel ss.prod))
          (fun cy => ∑ b ∈ Finset.range (nvis1dOf (classify tel ss.prod)),
            ((smpNorm cfg tel ss f p r cy b : ℚ) : ℂ) *
              Complex.exp (2 * (Real.pi : ℂ) * Complex.I *
                ((visPos1d (classify tel ss.prod) b : ℚ) : ℂ) *
                ((elGrid cfg px : ℚ) : ℂ) / ((waveLen (ss.freq f) : ℚ) : ℂ)))
          beam * (nbeamOf (classify tel ss.prod) : ℝ) := by
  have hpa : ∀ b : ℕ, paMat cfg tel ss f b px
      = Complex.exp (2 * (Real.pi : ℂ) * Complex.I *
          ((visPos1d (classify tel ss.prod) b : ℚ) : ℂ) *
          ((elGrid cfg px : ℚ) : ℂ) / ((waveLen (ss.freq f) : ℚ) : ℂ)) := by
    intro b
    unfold paMat
    congr 2
    ring
  constructor
  · unfold mapOut
    simp only [hpa]
  · unfold dirtyOut
    simp only [hpa]

/-- C8: the RMS output per (freq, pol, time) pixel equals
`sqrt(sum_cyl coeff[c] * sum_bin invert_no_zero(weight) * coefficient^2)`
on the normalized coefficient grid, computed directly on the grids with no
Fourier transform. -/
theorem c8_rms_formula (cfg : Config) (tel : Telescope) (ss : SStream)
    (f p r : ℕ) :
    rmsOut cfg tel ss f p r
      = Real.sqrt ((
          ∑ cc ∈ Finset.range (ncylOf (classify tel ss.prod)), coeffVec cfg cc *
            ∑ b ∈ Finset.range (nvis1dOf (classify tel ss.prod)),
              invert_no_zero ((packStage cfg tel ss).wgh f p r cc b) *
                smpNorm cfg tel ss f p r cc b ^ 2 : ℚ) : ℝ) := by
  unfold rmsOut
  congr 2
  rw [Finset.sum_comm]
  exact Finset.sum_congr rfl fun cc _ => (Finset.mul_sum _ _ _).symm

end ChPipeline
